import Mathlib

/-!
# EcfWrapper.h: the declared interface of `RLD_fit` and `LMA_fit`

The repository source is one C header, `src/main/c/EcfWrapper.h`.  It contains no
function bodies: its content is the include guard, the `extern "C"` wrapper and
two function prototypes.

The development below embeds the header verbatim as text (`EcfWrapper_h`) and
reads it the way a C or C++ translation unit that includes it does:

1. comments are replaced by white space (`stripComments`),
2. the text is cut into lines and each line into preprocessing tokens
   (`splitLines`, `lexLine`, `classify`),
3. the conditional-inclusion directives are executed (`preprocess`),
4. the surviving tokens are parsed as a sequence of external declarations
   (`parseUnit`).

Every step is a total, structurally recursive function, so each statement about
the header is settled by evaluating the pipeline on the header text.
-/

namespace EcfWrapper

/-! ## The source text -/

/-- The text of `src/main/c/EcfWrapper.h`, one entry per line, in file order.
Tab characters are written `\t`, the double quote `\"`, and the two braces of
the linkage block `\x7b` and `\x7d`. -/
def EcfWrapper_h : List String := [
  "/* ",
  "This file is part of the SLIM-curve package for exponential curve fitting of spectral lifetime data.",
  "",
  "Copyright (c) 2010, 2011, Gray Institute University of Oxford & UW-Madison LOCI.",
  "",
  "    This program is free software: you can redistribute it and/or modify",
  "    it under the terms of the GNU General Public License as published by",
  "    the Free Software Foundation, either version 3 of the License, or",
  "    (at your option) any later version.",
  "",
  "    This program is distributed in the hope that it will be useful,",
  "    but WITHOUT ANY WARRANTY; without even the implied warranty of",
  "    MERCHANTABILITY or FITNESS FOR A PARTICULAR PURPOSE.  See the",
  "    GNU General Public License for more details.",
  "",
  "    You should have received a copy of the GNU General Public License",
  "    along with this program.  If not, see <http://www.gnu.org/licenses/>.",
  " */",
  "",
  "/* ",
  " * File:   EcfWrapper.h",
  " * Author: Aivar Grislis",
  " *",
  " * Created on September 3, 2010, 5:21 PM",
  " */",
  "",
  "#ifndef _ECFWRAPPER_H",
  "#define\t_ECFWRAPPER_H",
  "",
  "#ifdef\t__cplusplus",
  "extern \"C\" \x7b",
  "#endif",
  "",
  "int RLD_fit(",
  "        double x_inc,",
  "        double y[],",
  "        int fit_start,",
  "        int fit_end,",
  "        double instr[],",
  "        int n_instr,",
  "        int noise,",
  "        double sig[],",
  "        double *z,",
  "        double *a,",
  "        double *tau,",
  "        double fitted[],",
  "        double *chi_square,",
  "        double chi_square_target",
  "        );",
  "",
  "int LMA_fit(",
  "        double x_inc,",
  "        double y[],",
  "        int fit_start,",
  "        int fit_end,",
  "        double instr[],",
  "        int n_instr,",
  "        int noise,",
  "        double sig[],",
  "        double param[],",
  "        int param_free[],",
  "        int n_param,",
  "        double fitted[],",
  "        double *chi_square,",
  "        double chi_square_target,",
  "        double chi_square_delta",
  "        );",
  "",
  "#ifdef\t__cplusplus",
  "\x7d",
  "#endif",
  "",
  "#endif\t/* _ECFWRAPPER_H */"
]

/-- The header as one character sequence: every line followed by a newline. -/
def sourceText : List Char :=
  EcfWrapper_h.foldr (fun l acc => l.toList ++ '\n' :: acc) []

/-! ## Comments -/

/-- Where the comment scanner stands: in code, inside a block comment, inside a
line comment, or inside a string literal (where comment markers do not count). -/
inductive ScanState where
  | code
  | block
  | line
  | str
deriving DecidableEq

/-- Replace each comment by one space.  A block comment or a string literal that
is still open at the end of the text is an error. -/
def stripComments : ScanState → List Char → Option (List Char)
  | .code, [] => some []
  | .line, [] => some []
  | .block, [] => none
  | .str, [] => none
  | .code, '/' :: '*' :: cs => (stripComments .block cs).map (' ' :: ·)
  | .code, '/' :: '/' :: cs => (stripComments .line cs).map (' ' :: ·)
  | .code, '\x22' :: cs => (stripComments .str cs).map ('\x22' :: ·)
  | .code, c :: cs => (stripComments .code cs).map (c :: ·)
  | .block, '*' :: '/' :: cs => stripComments .code cs
  | .block, _ :: cs => stripComments .block cs
  | .line, '\n' :: cs => (stripComments .code cs).map ('\n' :: ·)
  | .line, _ :: cs => stripComments .line cs
  | .str, '\x22' :: cs => (stripComments .code cs).map ('\x22' :: ·)
  | .str, '\n' :: _ => none
  | .str, c :: cs => (stripComments .str cs).map (c :: ·)

/-! ## Lines and tokens -/

/-- Cut a character sequence at each newline. -/
def splitLines : List Char → List (List Char)
  | [] => [[]]
  | c :: cs =>
    if c = '\n' then [] :: splitLines cs
    else
      match splitLines cs with
      | [] => [[c]]
      | l :: ls => (c :: l) :: ls

/-- A preprocessing token. -/
inductive Token where
  | ident (s : String)
  | number (s : String)
  | str (s : String)
  | punct (c : Char)
deriving DecidableEq

/-- Letters, digits and the underscore make up identifiers and numbers. -/
def isWordChar (c : Char) : Bool := c.isAlphanum || c = '_'

/-- White space inside a line. -/
def isBlank (c : Char) : Bool := c = ' ' || c = '\t' || c = '\r'

/-- The punctuators the lexer knows. -/
def isPunct (c : Char) : Bool :=
  c ∈ ['#', '(', ')', '[', ']', '\x7b', '\x7d', ',', ';', '*', '=', '.', '<', '>',
       '&', '-', '+', ':', '/', '!', '|', '~', '%', '^', '?']

/-- What the lexer is collecting: nothing, a word (characters in reverse), or
the inside of a string literal (characters in reverse). -/
inductive LexState where
  | idle
  | word (rev : List Char)
  | str (rev : List Char)
deriving DecidableEq

/-- The token for a collected word: a number when it starts with a digit,
otherwise an identifier (keywords are identifiers at this stage). -/
def wordToken (rev : List Char) : Token :=
  match rev.reverse with
  | [] => .ident ""
  | c :: cs => if c.isDigit then .number (String.mk (c :: cs)) else .ident (String.mk (c :: cs))

/-- Tokenise one line.  An unknown character or an unterminated string literal
is an error. -/
def lexLine : LexState → List Char → Option (List Token)
  | .idle, [] => some []
  | .word w, [] => some [wordToken w]
  | .str _, [] => none
  | .str s, c :: cs =>
    if c = '\x22' then (lexLine .idle cs).map (.str (String.mk s.reverse) :: ·)
    else lexLine (.str (c :: s)) cs
  | .word w, c :: cs =>
    if isWordChar c then lexLine (.word (c :: w)) cs
    else if isBlank c then (lexLine .idle cs).map (wordToken w :: ·)
    else if c = '\x22' then (lexLine (.str []) cs).map (wordToken w :: ·)
    else if isPunct c then (lexLine .idle cs).map (fun ts => wordToken w :: .punct c :: ts)
    else none
  | .idle, c :: cs =>
    if isWordChar c then lexLine (.word [c]) cs
    else if isBlank c then lexLine .idle cs
    else if c = '\x22' then lexLine (.str []) cs
    else if isPunct c then (lexLine .idle cs).map (.punct c :: ·)
    else none

/-- A logical line after tokenisation: a preprocessing directive (`#` first) or
ordinary text. -/
inductive Line where
  | directive (name : String) (args : List Token)
  | text (toks : List Token)
deriving DecidableEq

/-- A line whose first token is `#` followed by a name is a directive; a lone
`#` is the null directive; anything else is text. -/
def classify : List Token → Option Line
  | .punct '#' :: .ident d :: args => some (.directive d args)
  | [.punct '#'] => some (.directive "" [])
  | .punct '#' :: _ => none
  | toks => some (.text toks)

/-- Tokenise and classify every line. -/
def lexLines : List (List Char) → Option (List Line)
  | [] => some []
  | l :: ls =>
    match lexLine .idle l with
    | none => none
    | some toks =>
      match classify toks with
      | none => none
      | some ln => (lexLines ls).map (ln :: ·)

/-- The header as a sequence of logical lines. -/
def headerLines : Option (List Line) :=
  match stripComments .code sourceText with
  | none => none
  | some cs => lexLines (splitLines cs)

/-! ## Conditional inclusion -/

/-- The language the including translation unit is compiled as. -/
inductive Lang where
  | c
  | cxx
deriving DecidableEq

/-- The macros that exist before the header is read.  The only one the header
tests is `__cplusplus`, which a C++ compiler predefines and a C compiler does
not. -/
def predefined : Lang → List String
  | .c => []
  | .cxx => ["__cplusplus"]

/-- State of the preprocessor: the names of the defined macros with their
replacement lists, the stack of open conditional groups (`true` = the group is
included), and the tokens emitted so far. -/
structure PPState where
  macros : List (String × List Token)
  conds : List Bool
  out : List Token
deriving DecidableEq

/-- Whether a macro name is defined. -/
def PPState.defined (st : PPState) (x : String) : Bool :=
  st.macros.any (fun m => m.1 = x)

/-- Whether the current line lies in included text: every open group is
included. -/
def PPState.live (st : PPState) : Bool := st.conds.all id

/-- Whether a token is an identifier that names a defined macro. -/
def PPState.isMacroUse (st : PPState) : Token → Bool
  | .ident x => st.defined x
  | _ => false

/-- Execute one logical line.  Supported: `#ifdef`, `#ifndef`, `#endif`,
`#define` of an object-like macro, the null directive, and text lines that use
no macro.  Everything else (other directives, macro expansion, an `#endif`
without an open group) is refused with `none`. -/
def ppLine (st : PPState) : Line → Option PPState
  | .text toks =>
    if st.live then
      if toks.any st.isMacroUse then none
      else some { st with out := st.out ++ toks }
    else some st
  | .directive "ifdef" [.ident x] =>
    some { st with conds := st.defined x :: st.conds }
  | .directive "ifndef" [.ident x] =>
    some { st with conds := (!st.defined x) :: st.conds }
  | .directive "endif" [] =>
    match st.conds with
    | [] => none
    | _ :: rest => some { st with conds := rest }
  | .directive "define" (.ident _ :: .punct '(' :: _) =>
    if st.live then none else some st
  | .directive "define" (.ident x :: body) =>
    if st.live then
      if st.defined x then none
      else some { st with macros := st.macros ++ [(x, body)] }
    else some st
  | .directive "" [] => some st
  | .directive _ _ => none

/-- Execute all lines in order. -/
def ppLines (st : PPState) : List Line → Option PPState
  | [] => some st
  | l :: ls =>
    match ppLine st l with
    | none => none
    | some st1 => ppLines st1 ls

/-- Preprocess the header starting from the given macro names (each with an
empty replacement list).  Every conditional group must be closed at the end. -/
def preprocess (defs : List String) : Option PPState :=
  match headerLines with
  | none => none
  | some ls =>
    match ppLines { macros := defs.map (fun x => (x, [])), conds := [], out := [] } ls with
    | none => none
    | some st => if st.conds = [] then some st else none

/-- The names of the macros defined once the header has been read. -/
def macrosAfter (defs : List String) : Option (List String) :=
  (preprocess defs).map (fun st => st.macros.map (fun m => m.1))

/-! ## Declarations -/

/-- A declared type: a base type given by its specifier keywords, a pointer, or
an array with an optional declared length.  `const` is recorded on base types
and on pointers. -/
inductive CType where
  | base (const : Bool) (spec : List String)
  | pointer (const : Bool) (target : CType)
  | array (elem : CType) (len : Option String)
deriving DecidableEq

/-- A declared function parameter. -/
structure Param where
  name : String
  type : CType
deriving DecidableEq

/-- What kind of entity a declaration introduces. -/
inductive Kind where
  | function
  | object
  | typeName
deriving DecidableEq

/-- Language linkage of a declared name. -/
inductive Linkage where
  | c
  | cxx
deriving DecidableEq

/-- One declared entity.  For a function `type` is the return type.
`inExternC` says whether the declaration stands inside an `extern "C"` block. -/
structure Entity where
  kind : Kind
  name : String
  type : CType
  params : List Param
  inExternC : Bool
  linkage : Linkage
deriving DecidableEq

/-- The type-specifier keywords. -/
def typeKeywords : List String :=
  ["void", "char", "short", "int", "long", "float", "double", "signed", "unsigned"]

/-- The storage-class keywords. -/
def storageKeywords : List String := ["typedef", "extern", "static"]

/-- Declaration specifiers collected from the front of a declaration. -/
structure Specs where
  const : Bool
  storage : List String
  types : List String
deriving DecidableEq

/-- Collect the leading run of specifier keywords. -/
def takeSpecs : List Token → Specs × List Token
  | .ident s :: rest =>
    if s ∈ typeKeywords then
      let r := takeSpecs rest
      ({ r.1 with types := s :: r.1.types }, r.2)
    else if s ∈ storageKeywords then
      let r := takeSpecs rest
      ({ r.1 with storage := s :: r.1.storage }, r.2)
    else if s = "const" then
      let r := takeSpecs rest
      ({ r.1 with const := true }, r.2)
    else ({ const := false, storage := [], types := [] }, .ident s :: rest)
  | rest => ({ const := false, storage := [], types := [] }, rest)

/-- Wrap a type in one pointer level for each leading `*` (optionally followed
by `const`). -/
def parsePointers (t : CType) : List Token → CType × List Token
  | .punct '*' :: .ident "const" :: rest => parsePointers (.pointer true t) rest
  | .punct '*' :: rest => parsePointers (.pointer false t) rest
  | rest => (t, rest)

/-- Read the array suffixes `[]` and `[n]` that follow a declared name. -/
def parseArraySizes : List Token → List (Option String) × List Token
  | .punct '[' :: .punct ']' :: rest =>
    let r := parseArraySizes rest
    (none :: r.1, r.2)
  | .punct '[' :: .number n :: .punct ']' :: rest =>
    let r := parseArraySizes rest
    (some n :: r.1, r.2)
  | rest => ([], rest)

/-- The type of a declarator with the given array suffixes over type `t`. -/
def arrayOf (t : CType) (sizes : List (Option String)) : CType :=
  sizes.foldr (fun len u => .array u len) t

/-- Parse one named parameter declaration; the rest starts after it. -/
def parseParam (toks : List Token) : Option (Param × List Token) :=
  let sp := takeSpecs toks
  if sp.1.types = [] ∨ sp.1.storage ≠ [] then none
  else
    let pt := parsePointers (.base sp.1.const sp.1.types) sp.2
    match pt.2 with
    | .ident n :: r3 =>
      let az := parseArraySizes r3
      some ({ name := n, type := arrayOf pt.1 az.1 }, az.2)
    | _ => none

/-- Parse a non-empty, comma-separated parameter list up to and including the
closing parenthesis. -/
def parseParams : Nat → List Token → Option (List Param × List Token)
  | 0, _ => none
  | fuel + 1, toks =>
    match parseParam toks with
    | some (p, .punct ',' :: rest) =>
      (parseParams fuel rest).map (fun r => (p :: r.1, r.2))
    | some (p, .punct ')' :: rest) => some ([p], rest)
    | _ => none

/-- The linkage a declaration gets: in C always C; in C++ it is C inside an
`extern "C"` block and C++ outside. -/
def linkageOf : Lang → Nat → Linkage
  | .c, _ => .c
  | .cxx, 0 => .cxx
  | .cxx, _ + 1 => .c

/-- The kind of a declared entity: `typedef` makes a type name, otherwise a
parameter list makes a function, otherwise it is an object. -/
def kindOf (sp : Specs) (isFunction : Bool) : Kind :=
  if "typedef" ∈ sp.storage then .typeName
  else if isFunction then .function else .object

/-- Parse one external declaration ending in `;`.  `depth` is the number of
enclosing `extern "C"` blocks. -/
def parseDecl (lang : Lang) (depth : Nat) (toks : List Token) :
    Option (Entity × List Token) :=
  let sp := takeSpecs toks
  if sp.1.types = [] then none
  else
    let pt := parsePointers (.base sp.1.const sp.1.types) sp.2
    let mk (isFunction : Bool) (n : String) (t : CType) (ps : List Param) : Entity :=
      { kind := kindOf sp.1 isFunction, name := n, type := t, params := ps,
        inExternC := decide (0 < depth), linkage := linkageOf lang depth }
    match pt.2 with
    | .ident n :: .punct '(' :: .punct ')' :: .punct ';' :: rest =>
      some (mk true n pt.1 [], rest)
    | .ident n :: .punct '(' :: .ident "void" :: .punct ')' :: .punct ';' :: rest =>
      some (mk true n pt.1 [], rest)
    | .ident n :: .punct '(' :: r3 =>
      match parseParams r3.length r3 with
      | some (ps, .punct ';' :: rest) => some (mk true n pt.1 ps, rest)
      | _ => none
    | .ident n :: r3 =>
      let az := parseArraySizes r3
      match az.2 with
      | .punct ';' :: rest => some (mk false n (arrayOf pt.1 az.1) [], rest)
      | _ => none
    | _ => none

/-- Parse a sequence of external declarations and `extern "C"` blocks.  The
block syntax exists only in C++.  Anything the parser does not recognise is
refused with `none`. -/
def parseUnit (lang : Lang) : Nat → Nat → List Token → Option (List Entity)
  | _, depth, [] => if depth = 0 then some [] else none
  | 0, _, _ :: _ => none
  | fuel + 1, depth, .ident "extern" :: .str "C" :: .punct '\x7b' :: rest =>
    match lang with
    | .c => none
    | .cxx => parseUnit lang fuel (depth + 1) rest
  | fuel + 1, depth, .punct '\x7d' :: rest =>
    match depth with
    | 0 => none
    | d + 1 => parseUnit lang fuel d rest
  | fuel + 1, depth, toks =>
    match parseDecl lang depth toks with
    | none => none
    | some (e, rest) => (parseUnit lang fuel depth rest).map (e :: ·)

/-- The entities declared by the header when it is first included in a
translation unit of the given language. -/
def declarations (lang : Lang) : Option (List Entity) :=
  match preprocess (predefined lang) with
  | none => none
  | some st => parseUnit lang (st.out.length + 1) 0 st.out

/-- The declaration of the named function, if the header declares one. -/
def lookup (lang : Lang) (f : String) : Option Entity :=
  match declarations lang with
  | none => none
  | some es => es.find? (fun e => e.kind = .function ∧ e.name = f)

/-- The declaration of `RLD_fit` (header lines 34-49). -/
def RLD_fit (lang : Lang) : Option Entity := lookup lang "RLD_fit"

/-- The declaration of `LMA_fit` (header lines 51-67). -/
def LMA_fit (lang : Lang) : Option Entity := lookup lang "LMA_fit"

/-! ## Vocabulary for the statements -/

/-- The type `int`. -/
def tInt : CType := .base false ["int"]

/-- The type `double`. -/
def tDouble : CType := .base false ["double"]

/-- The type `double *`. -/
def tDoublePtr : CType := .pointer false tDouble

/-- The type of an unsized array of `double`, as in `double y[]`. -/
def tDoubleArr : CType := .array tDouble none

/-- The type of an unsized array of `int`, as in `int param_free[]`. -/
def tIntArr : CType := .array tInt none

/-- Whether a type is passed by value as a scalar: `double` or `int`. -/
def isScalar (t : CType) : Bool := t = tDouble || t = tInt

/-- Whether a parameter is declared with array syntax. -/
def isArray : CType → Bool
  | .array _ _ => true
  | _ => false

/-- Whether a parameter is declared as an array without a length. -/
def isUnsizedArray : CType → Bool
  | .array _ none => true
  | _ => false

/-- The element type of a pointer or array type. -/
def elemType : CType → Option CType
  | .pointer _ t => some t
  | .array t _ => some t
  | .base _ _ => none

/-- Whether the callee can write doubles through the parameter: a pointer to,
or an array of, `double` that is not `const`. -/
def isWritableDouble (t : CType) : Bool := elemType t = some tDouble

/-- Whether a type is one the data-model sentence allows: `double`, `int`, or a
pointer or array whose element type is `double`. -/
def isDoubleIntOrDoubleSeq (t : CType) : Bool :=
  isScalar t || elemType t = some tDouble

/-- The names of a parameter list, in order. -/
def names (ps : List Param) : List String := ps.map (fun p => p.name)

/-- The optional result exists and its value satisfies `p`. -/
def Holds {α : Type} (o : Option α) (p : α → Prop) : Prop :=
  match o with
  | some a => p a
  | none => False

instance instDecidableHolds {α : Type} (o : Option α) (p : α → Prop) [DecidablePred p] :
    Decidable (Holds o p) :=
  match o with
  | some a => inferInstanceAs (Decidable (p a))
  | none => inferInstanceAs (Decidable False)

/-! ## The interface table of the specification -/

/-- One row of the interface table: the function, the names listed under
Inputs and the names listed under Outputs. -/
structure TableRow where
  function : String
  inputs : List String
  outputs : List String
deriving DecidableEq

/-- The row for `RLD_fit`, as the specification words it. -/
def tableRLD : TableRow :=
  { function := "RLD_fit",
    inputs := ["x_inc", "y", "fit_start", "fit_end", "instr", "n_instr", "noise", "sig",
               "chi_square_target"],
    outputs := ["z", "a", "tau", "fitted", "chi_square"] }

/-- The row for `LMA_fit`, as the specification words it. -/
def tableLMA : TableRow :=
  { function := "LMA_fit",
    inputs := ["x_inc", "y", "fit_start", "fit_end", "instr", "n_instr", "noise", "sig",
               "param", "param_free", "n_param", "chi_square_target", "chi_square_delta"],
    outputs := ["param", "fitted", "chi_square"] }

/-- The parameters the specification names as implying the size of an array:
`fit_end - fit_start` for the curve-length arrays, `n_instr` for the instrument
response and `n_param` for the parameter vector and its mask. -/
def lengthParams (array : String) : List String :=
  if array ∈ ["y", "sig", "fitted"] then ["fit_start", "fit_end"]
  else if array = "instr" then ["n_instr"]
  else if array ∈ ["param", "param_free"] then ["n_param"]
  else []

set_option maxRecDepth 1000000
set_option synthInstance.maxHeartbeats 400000
set_option synthInstance.maxSize 1024

/-! ## Reading off an optional result -/

/-- Unfolding of `Holds` for one result. -/
theorem exists_of_holds {α : Type} {o : Option α} {p : α → Prop} (h : Holds o p) :
    ∃ a, o = some a ∧ p a := by
  cases o with
  | none => exact h.elim
  | some a => exact ⟨a, rfl, h⟩

/-- Unfolding of `Holds` for two results. -/
theorem exists₂_of_holds {α β : Type} {o₁ : Option α} {o₂ : Option β} {p : α → β → Prop}
    (h : Holds o₁ (fun a => Holds o₂ (fun b => p a b))) :
    ∃ a b, o₁ = some a ∧ o₂ = some b ∧ p a b := by
  obtain ⟨a, ha, h2⟩ := exists_of_holds h
  obtain ⟨b, hb, h3⟩ := exists_of_holds h2
  exact ⟨a, b, ha, hb, h3⟩

/-! ## The declarations -/

/-- C1: the header declares `RLD_fit` as a function returning `int` with exactly
14 parameters, in this order and with these types: `double x_inc`, `double y[]`,
`int fit_start`, `int fit_end`, `double instr[]`, `int n_instr`, `int noise`,
`double sig[]`, `double *z`, `double *a`, `double *tau`, `double fitted[]`,
`double *chi_square`, `double chi_square_target`; the same in C and in C++. -/
theorem RLD_fit_signature (lang : Lang) :
    (RLD_fit lang).map (fun e => (e.kind, e.type, e.params)) =
      some (Kind.function, tInt,
        [⟨"x_inc", tDouble⟩, ⟨"y", tDoubleArr⟩, ⟨"fit_start", tInt⟩, ⟨"fit_end", tInt⟩,
         ⟨"instr", tDoubleArr⟩, ⟨"n_instr", tInt⟩, ⟨"noise", tInt⟩, ⟨"sig", tDoubleArr⟩,
         ⟨"z", tDoublePtr⟩, ⟨"a", tDoublePtr⟩, ⟨"tau", tDoublePtr⟩, ⟨"fitted", tDoubleArr⟩,
         ⟨"chi_square", tDoublePtr⟩, ⟨"chi_square_target", tDouble⟩]) ∧
    (RLD_fit lang).map (fun e => e.params.length) = some 14 := by
  cases lang <;> decide!

/-- C2: the header declares `LMA_fit` as a function returning `int` with exactly
15 parameters, in this order and with these types: `double x_inc`, `double y[]`,
`int fit_start`, `int fit_end`, `double instr[]`, `int n_instr`, `int noise`,
`double sig[]`, `double param[]`, `int param_free[]`, `int n_param`,
`double fitted[]`, `double *chi_square`, `double chi_square_target`,
`double chi_square_delta`; the same in C and in C++. -/
theorem LMA_fit_signature (lang : Lang) :
    (LMA_fit lang).map (fun e => (e.kind, e.type, e.params)) =
      some (Kind.function, tInt,
        [⟨"x_inc", tDouble⟩, ⟨"y", tDoubleArr⟩, ⟨"fit_start", tInt⟩, ⟨"fit_end", tInt⟩,
         ⟨"instr", tDoubleArr⟩, ⟨"n_instr", tInt⟩, ⟨"noise", tInt⟩, ⟨"sig", tDoubleArr⟩,
         ⟨"param", tDoubleArr⟩, ⟨"param_free", tIntArr⟩, ⟨"n_param", tInt⟩,
         ⟨"fitted", tDoubleArr⟩, ⟨"chi_square", tDoublePtr⟩, ⟨"chi_square_target", tDouble⟩,
         ⟨"chi_square_delta", tDouble⟩]) ∧
    (LMA_fit lang).map (fun e => e.params.length) = some 15 := by
  cases lang <;> decide!

/-- C3: the first eight parameters of `LMA_fit` and `RLD_fit` (`x_inc`, `y`,
`fit_start`, `fit_end`, `instr`, `n_instr`, `noise`, `sig`) are identical in
name, type and position; the parameter names of `LMA_fit` are those of `RLD_fit`
with the three consecutive names `z`, `a`, `tau` replaced by `param`,
`param_free`, `n_param` and with `chi_square_delta` appended; every name common
to both declarations has the same type and the same relative order in both. -/
theorem LMA_fit_params_from_RLD_fit (lang : Lang) :
    ∃ r l, RLD_fit lang = some r ∧ LMA_fit lang = some l ∧
      (l.params.take 8 = r.params.take 8 ∧
       names (r.params.take 8) =
         ["x_inc", "y", "fit_start", "fit_end", "instr", "n_instr", "noise", "sig"] ∧
       names ((r.params.drop 8).take 3) = ["z", "a", "tau"] ∧
       names l.params =
         names (r.params.take 8) ++ ["param", "param_free", "n_param"] ++
           names (r.params.drop 11) ++ ["chi_square_delta"] ∧
       (∀ p ∈ r.params, ∀ q ∈ l.params, p.name = q.name → p.type = q.type) ∧
       names (r.params.filter (fun p => p.name ∈ names l.params)) =
         names (l.params.filter (fun q => q.name ∈ names r.params))) := by
  apply exists₂_of_holds
  cases lang <;> decide!

/-- C4: for `RLD_fit` and for `LMA_fit` the Inputs and Outputs columns of the
interface table together list exactly the declared parameter names (14 for
`RLD_fit`, no name in both columns; 15 for `LMA_fit`, `param` the only name in
both columns); every parameter listed as an output is declared as a non-const
pointer to `double` or array of `double`; and every parameter passed by value
(`double` or `int`) is listed as an input and not as an output. -/
theorem table_agrees_with_declarations (lang : Lang) :
    ∃ r l, lookup lang tableRLD.function = some r ∧ lookup lang tableLMA.function = some l ∧
      ((tableRLD.inputs ++ tableRLD.outputs ⊆ names r.params ∧
        names r.params ⊆ tableRLD.inputs ++ tableRLD.outputs ∧
        (names r.params).Nodup ∧ r.params.length = 14 ∧
        tableRLD.inputs.filter (fun n => n ∈ tableRLD.outputs) = []) ∧
       (tableLMA.inputs ++ tableLMA.outputs ⊆ names l.params ∧
        names l.params ⊆ tableLMA.inputs ++ tableLMA.outputs ∧
        (names l.params).Nodup ∧ l.params.length = 15 ∧
        tableLMA.inputs.filter (fun n => n ∈ tableLMA.outputs) = ["param"]) ∧
       (tableRLD.outputs = ["z", "a", "tau", "fitted", "chi_square"] ∧
        ∀ p ∈ r.params, p.name ∈ tableRLD.outputs →
          isWritableDouble p.type = true ∧ (p.type = tDoublePtr ∨ p.type = tDoubleArr)) ∧
       (tableLMA.outputs = ["param", "fitted", "chi_square"] ∧
        ∀ p ∈ l.params, p.name ∈ tableLMA.outputs →
          isWritableDouble p.type = true ∧ (p.type = tDoublePtr ∨ p.type = tDoubleArr)) ∧
       (∀ p ∈ r.params, isScalar p.type = true →
          p.name ∈ tableRLD.inputs ∧ p.name ∉ tableRLD.outputs) ∧
       (∀ p ∈ l.params, isScalar p.type = true →
          p.name ∈ tableLMA.inputs ∧ p.name ∉ tableLMA.outputs)) := by
  apply exists₂_of_holds
  cases lang <;> decide!

/-- C5, as stated, fails: `LMA_fit` has the parameter `int param_free[]`, an
array whose element type is `int`, which is neither `double`, `int`, nor a
pointer or array of `double`. -/
theorem param_free_is_int_array :
    ∃ l p, LMA_fit Lang.c = some l ∧ p ∈ l.params ∧ p.name = "param_free" ∧
      p.type = tIntArr ∧ elemType p.type = some tInt ∧ elemType p.type ≠ some tDouble ∧
      isDoubleIntOrDoubleSeq p.type = false := by
  refine ⟨_, ⟨"param_free", tIntArr⟩, (?_ : LMA_fit Lang.c = some (Entity.mk Kind.function
    "LMA_fit" tInt [⟨"x_inc", tDouble⟩, ⟨"y", tDoubleArr⟩, ⟨"fit_start", tInt⟩,
      ⟨"fit_end", tInt⟩, ⟨"instr", tDoubleArr⟩, ⟨"n_instr", tInt⟩, ⟨"noise", tInt⟩,
      ⟨"sig", tDoubleArr⟩, ⟨"param", tDoubleArr⟩, ⟨"param_free", tIntArr⟩, ⟨"n_param", tInt⟩,
      ⟨"fitted", tDoubleArr⟩, ⟨"chi_square", tDoublePtr⟩, ⟨"chi_square_target", tDouble⟩,
      ⟨"chi_square_delta", tDouble⟩] false Linkage.c)), ?_, ?_, ?_, ?_, ?_, ?_⟩ <;> decide!

/-- C5, amended: every parameter of `RLD_fit`, and every parameter of `LMA_fit`
other than `param_free`, has type `double`, `int`, or a pointer or array whose
element type is `double`; each of the array parameters `y`, `instr`, `sig`,
`fitted` (in both declarations) and `param` (in `LMA_fit`) has element type
`double`; `param_free` is an array whose element type is `int`. -/
theorem only_doubles_ints_and_sequences (lang : Lang) :
    ∃ r l, RLD_fit lang = some r ∧ LMA_fit lang = some l ∧
      ((∀ p ∈ r.params, isDoubleIntOrDoubleSeq p.type = true) ∧
       (∀ p ∈ l.params, p.name ≠ "param_free" → isDoubleIntOrDoubleSeq p.type = true) ∧
       (∀ n ∈ ["y", "instr", "sig", "fitted"], ∃ p ∈ r.params,
          p.name = n ∧ isArray p.type = true ∧ elemType p.type = some tDouble) ∧
       (∀ n ∈ ["y", "instr", "sig", "fitted", "param"], ∃ p ∈ l.params,
          p.name = n ∧ isArray p.type = true ∧ elemType p.type = some tDouble) ∧
       (∃ p ∈ l.params,
          p.name = "param_free" ∧ isArray p.type = true ∧ elemType p.type = some tInt) ∧
       (∀ p ∈ r.params, p.name ≠ "param_free")) := by
  apply exists₂_of_holds
  cases lang <;> decide!

/-- C8: on first inclusion the header declares exactly two entities, the
functions `RLD_fit` and `LMA_fit`, both returning `int`, and defines no macro
other than the include guard `_ECFWRAPPER_H`.  Compiled as C++ (`__cplusplus`
defined) both declarations stand inside the `extern "C"` block and have C
linkage; compiled as C the block is not emitted and both have C linkage. -/
theorem header_declares_two_C_functions :
    ((declarations Lang.c).map
        (fun es => es.map (fun e => (e.kind, e.name, e.type, e.inExternC, e.linkage))) =
      some [(Kind.function, "RLD_fit", tInt, false, Linkage.c),
            (Kind.function, "LMA_fit", tInt, false, Linkage.c)]) ∧
    ((declarations Lang.cxx).map
        (fun es => es.map (fun e => (e.kind, e.name, e.type, e.inExternC, e.linkage))) =
      some [(Kind.function, "RLD_fit", tInt, true, Linkage.c),
            (Kind.function, "LMA_fit", tInt, true, Linkage.c)]) ∧
    macrosAfter (predefined Lang.c) = some ["_ECFWRAPPER_H"] ∧
    macrosAfter (predefined Lang.cxx) = some ["__cplusplus", "_ECFWRAPPER_H"] := by
  decide!

/-- The include guard works: when `_ECFWRAPPER_H` is already defined, reading
the header emits no token and leaves the macro set unchanged. -/
theorem second_inclusion_is_empty :
    (preprocess ["_ECFWRAPPER_H"]).map (fun st => (st.out, st.macros)) =
      some ([], [("_ECFWRAPPER_H", [])]) := by
  decide!

/-- C9: no array parameter of `RLD_fit` or `LMA_fit` is declared with a length;
the parameters that imply the array sizes (`fit_start` and `fit_end` for `y`,
`sig`, `fitted`; `n_instr` for `instr`; `n_param` for `param` and `param_free`)
are declared as `int` parameters of the same function; and the declarations
have no other integer parameter except the noise selector `noise`. -/
theorem array_sizes_not_declared (lang : Lang) :
    ∃ r l, RLD_fit lang = some r ∧ LMA_fit lang = some l ∧
      ((∀ p ∈ r.params ++ l.params, isArray p.type = true → isUnsizedArray p.type = true) ∧
       names (r.params.filter (fun p => isArray p.type)) = ["y", "instr", "sig", "fitted"] ∧
       names (l.params.filter (fun p => isArray p.type)) =
         ["y", "instr", "sig", "param", "param_free", "fitted"] ∧
       (∀ p ∈ r.params, isArray p.type = true →
          lengthParams p.name ≠ [] ∧ ∀ n ∈ lengthParams p.name, ⟨n, tInt⟩ ∈ r.params) ∧
       (∀ p ∈ l.params, isArray p.type = true →
          lengthParams p.name ≠ [] ∧ ∀ n ∈ lengthParams p.name, ⟨n, tInt⟩ ∈ l.params) ∧
       names (r.params.filter (fun p => p.type = tInt)) =
         ["fit_start", "fit_end", "n_instr", "noise"] ∧
       names (l.params.filter (fun p => p.type = tInt)) =
         ["fit_start", "fit_end", "n_instr", "noise", "n_param"] ∧
       (∀ q ∈ r.params, q.type = tInt → q.name ≠ "noise" →
          ∃ p ∈ r.params, isArray p.type = true ∧ q.name ∈ lengthParams p.name) ∧
       (∀ q ∈ l.params, q.type = tInt → q.name ≠ "noise" →
          ∃ p ∈ l.params, isArray p.type = true ∧ q.name ∈ lengthParams p.name)) := by
  apply exists₂_of_holds
  cases lang <;> decide!

end EcfWrapper
